import Mathlib

/-!
Shallow embedding of the cinch-web frontend session-synchronization core:
the wire-protocol types and protocol reducer (`lib/protocol.ts` /
`lib/types.ts`), the entry resolver (`components/InspectorPanel.tsx`),
the reconnect backoff of the connection manager
(`hooks/useAgentSocket.ts`), and the connection-status presentation
state machine (`components/ConnectionStatus.tsx`).

JavaScript impurity is made explicit: the reducer's calls to
`new Date().toLocaleTimeString()` become an explicit `now : String`
argument, and `JSON.stringify` on the reasoning payload is embedded as
an executable JSON string encoder.
-/

namespace Cinch

/-- Mirrors `LogLevel` in `lib/types.ts`. -/
inductive LogLevel
  | Trace
  | Debug
  | Info
  | Warn
  | Error
deriving DecidableEq, Repr

/-- Mirrors `LogLine` in `lib/types.ts`. -/
structure LogLine where
  time : String
  level : LogLevel
  message : String
deriving DecidableEq, Repr

/-- Mirrors `AgentEntry` in `lib/types.ts`: a tagged union with exactly one
payload per instance. -/
inductive AgentEntry
  | Text (text : String)
  | ToolExecuting (name arguments : String)
  | ToolResult (name result : String) (is_error : Bool)
  | UserMessage (message : String)
  | TodoUpdate (content : String)
deriving DecidableEq, Repr

/-- Mirrors `QuestionChoice` in `lib/types.ts`. -/
structure QuestionChoice where
  label : String
  body : String
  metadata : String
deriving DecidableEq, Repr

/-- Mirrors `UserQuestion` in `lib/types.ts`. -/
structure UserQuestion where
  prompt : String
  choices : List QuestionChoice
  editable : Bool
  max_edit_length : Option Nat
deriving DecidableEq, Repr

/-- Mirrors `ActiveQuestionSnapshot` in `lib/types.ts`. -/
structure ActiveQuestionSnapshot where
  question : UserQuestion
  remaining_secs : Option Nat
  done : Bool
deriving DecidableEq, Repr

/-- The `extension` payload is a `Record<string, unknown>` that the core
treats as fully opaque (stored and replaced wholesale, never inspected);
we embed it as an association list of string keys to string values. -/
abbrev Extension := List (String × String)

/-- Mirrors `UiStateSnapshot` in `lib/types.ts` (the `data` payload of a
`snapshot` message). -/
structure UiStateSnapshot where
  phase : String
  round : Nat
  max_rounds : Nat
  context_pct : Rat
  model : String
  cycle : Nat
  agent_output : List AgentEntry
  streaming_buffer : String
  logs : List LogLine
  running : Bool
  next_cycle_secs : Option Nat
  active_question : Option ActiveQuestionSnapshot
  extension : Option Extension
deriving DecidableEq, Repr

/-- Mirrors `AgentState` in `lib/types.ts`: the flattened client state
derived from snapshot + incremental updates. -/
structure AgentState where
  phase : String
  round : Nat
  maxRounds : Nat
  contextPct : Rat
  model : String
  cycle : Nat
  entries : List AgentEntry
  streamingBuffer : String
  reasoningBuffer : String
  logs : List LogLine
  running : Bool
  nextCycleSecs : Option Nat
  activeQuestion : Option ActiveQuestionSnapshot
  extension : Option Extension
  totalPromptTokens : Nat
  totalCompletionTokens : Nat
deriving DecidableEq, Repr

/-- Mirrors `INITIAL_STATE` in `lib/types.ts`. -/
def INITIAL_STATE : AgentState where
  phase := "Connecting..."
  round := 0
  maxRounds := 0
  contextPct := 0
  model := ""
  cycle := 0
  entries := []
  streamingBuffer := ""
  reasoningBuffer := ""
  logs := []
  running := true
  nextCycleSecs := none
  activeQuestion := none
  extension := none
  totalPromptTokens := 0
  totalCompletionTokens := 0

/-- Mirrors the `WsServerMessage` union in `lib/protocol.ts`. The
`unknown` constructor stands for any runtime message whose `type`
discriminator is not one of the recognized shapes (the TypeScript union
is closed, but the runtime cast is unchecked, so such messages reach the
reducer's `default` branch); it carries the unrecognized discriminator
and the raw remainder of the frame. -/
inductive WsServerMessage
  | snapshot (data : UiStateSnapshot)
  | text (text : String)
  | text_delta (delta : String)
  | tool_executing (name arguments : String)
  | tool_result (name result : String) (is_error : Bool)
  | reasoning (text : String)
  | reasoning_delta (delta : String)
  | round (round max_rounds : Nat) (context_pct : Rat)
  | phase (phase : String)
  | question (question : UserQuestion)
  | question_dismissed
  | finished
  | log (line : LogLine)
  | extension (data : Extension)
  | user_message (message : String)
  | token_usage (prompt_tokens completion_tokens : Nat)
  | tool_calls_received (round count : Nat)
  | tool_cache_hit (name arguments : String)
  | eviction (freed_chars evicted_count : Nat)
  | compaction (compaction_number : Nat)
  | model_routed (model : String) (round : Nat)
  | checkpoint_saved (round : Nat) (path : String)
  | checkpoint_resumed (round : Nat)
  | empty_response (round attempt max_retries : Nat)
  | approval_required (name arguments : String)
  | todo_update (content : String)
  | unknown (tag payload : String)
deriving DecidableEq, Repr

/-- The 26 `type` discriminators of the closed `WsServerMessage` union in
`lib/protocol.ts`. -/
def recognizedMessageTypes : List String :=
  ["snapshot", "text", "text_delta", "tool_executing", "tool_result",
   "reasoning", "reasoning_delta", "round", "phase", "question",
   "question_dismissed", "finished", "log", "extension", "user_message",
   "token_usage", "tool_calls_received", "tool_cache_hit", "eviction",
   "compaction", "model_routed", "checkpoint_saved", "checkpoint_resumed",
   "empty_response", "approval_required", "todo_update"]

/-- Lower-case hex digit, as produced by JavaScript string escaping. -/
def hexDigit (n : Nat) : Char :=
  if n < 10 then Char.ofNat (48 + n) else Char.ofNat (87 + n)

/-- One character of `JSON.stringify` string escaping. -/
def jsonEscapeChar (c : Char) : String :=
  if c = '"' then "\\\""
  else if c = '\\' then "\\\\"
  else if c = '\x08' then "\\b"
  else if c = '\x09' then "\\t"
  else if c = '\x0a' then "\\n"
  else if c = '\x0c' then "\\f"
  else if c = '\x0d' then "\\r"
  else if c.toNat < 32 then
    "\\u00" ++ String.mk [hexDigit (c.toNat / 16), hexDigit (c.toNat % 16)]
  else String.singleton c

/-- `JSON.stringify` applied to a string value. -/
def jsonStringifyString (s : String) : String :=
  "\"" ++ String.join (s.toList.map jsonEscapeChar) ++ "\""

/-- `JSON.stringify({ reasoning: text })`, as built in the `reasoning`
case of the reducer. -/
def reasoningArguments (text : String) : String :=
  "\x7b\"reasoning\":" ++ jsonStringifyString text ++ "\x7d"

/-- Does the entry satisfy the `"TodoUpdate" in e` scan of the
`todo_update` reducer case? -/
def isTodoUpdateEntry : AgentEntry → Bool
  | .TodoUpdate _ => true
  | _ => false

/-- `true` exactly on `snapshot` messages. -/
def isSnapshot : WsServerMessage → Bool
  | .snapshot _ => true
  | _ => false

/-- `true` exactly on the six message shapes whose reducer case reads the
wall clock (`new Date().toLocaleTimeString()`) to stamp a synthetic log
line. -/
def usesClock : WsServerMessage → Bool
  | .eviction _ _ => true
  | .compaction _ => true
  | .checkpoint_saved _ _ => true
  | .checkpoint_resumed _ => true
  | .empty_response _ _ _ => true
  | .approval_required _ _ => true
  | _ => false

/-- The protocol reducer `applyMessage` of `lib/protocol.ts`: apply one
server message to the current agent state, returning a new state.
`now` is the value `new Date().toLocaleTimeString()` would produce at
the moment of the call — the reducer's one impure input, made explicit. -/
def applyMessage (now : String) (prev : AgentState) (msg : WsServerMessage) :
    AgentState :=
  match msg with
  | .snapshot s =>
      { phase := s.phase
        round := s.round
        maxRounds := s.max_rounds
        contextPct := s.context_pct
        model := s.model
        cycle := s.cycle
        entries := s.agent_output
        streamingBuffer := s.streaming_buffer
        reasoningBuffer := ""
        logs := s.logs
        running := s.running
        nextCycleSecs := s.next_cycle_secs
        activeQuestion := s.active_question
        extension := s.extension
        totalPromptTokens := prev.totalPromptTokens
        totalCompletionTokens := prev.totalCompletionTokens }
  | .text t =>
      { prev with
        entries := prev.entries ++ [.Text t]
        streamingBuffer := "" }
  | .text_delta d =>
      { prev with streamingBuffer := prev.streamingBuffer ++ d }
  | .tool_executing name args =>
      { prev with
        phase := "Tool: " ++ name
        entries := prev.entries ++ [.ToolExecuting name args] }
  | .tool_result name result is_error =>
      { prev with
        entries := prev.entries ++ [.ToolResult name result is_error] }
  | .reasoning t =>
      { prev with
        entries := prev.entries ++
          [.ToolExecuting "think" (reasoningArguments t),
           .ToolResult "think" "ok" false]
        reasoningBuffer := "" }
  | .reasoning_delta d =>
      { prev with reasoningBuffer := prev.reasoningBuffer ++ d }
  | .round r mr cp =>
      { prev with round := r, maxRounds := mr, contextPct := cp }
  | .phase p =>
      { prev with phase := p }
  | .question q =>
      { prev with
        activeQuestion := some
          { question := q, remaining_secs := none, done := false } }
  | .question_dismissed =>
      { prev with activeQuestion := none }
  | .finished =>
      { prev with running := false, phase := "Finished" }
  | .log line =>
      { prev with logs := prev.logs ++ [line] }
  | .extension d =>
      { prev with extension := some d }
  | .user_message m =>
      { prev with entries := prev.entries ++ [.UserMessage m] }
  | .token_usage pt ct =>
      { prev with
        totalPromptTokens := prev.totalPromptTokens + pt
        totalCompletionTokens := prev.totalCompletionTokens + ct }
  | .tool_calls_received _ count =>
      { prev with phase := toString count ++ " tool call(s)" }
  | .tool_cache_hit name args =>
      { prev with
        entries := prev.entries ++ [.ToolExecuting (name ++ " (cached)") args] }
  | .model_routed m _ =>
      { prev with model := m }
  | .eviction freed_chars evicted_count =>
      { prev with
        logs := prev.logs ++
          [{ time := now, level := .Info,
             message := "Context eviction: freed " ++ toString freed_chars ++
               " chars from " ++ toString evicted_count ++ " tool result(s)" }] }
  | .compaction compaction_number =>
      { prev with
        logs := prev.logs ++
          [{ time := now, level := .Info,
             message := "Context compaction #" ++ toString compaction_number ++
               " completed" }] }
  | .checkpoint_saved r path =>
      { prev with
        logs := prev.logs ++
          [{ time := now, level := .Debug,
             message := "Checkpoint saved at round " ++ toString r ++ ": " ++
               path }] }
  | .checkpoint_resumed r =>
      { prev with
        logs := prev.logs ++
          [{ time := now, level := .Info,
             message := "Resumed from checkpoint at round " ++ toString r }] }
  | .empty_response r attempt max_retries =>
      { prev with
        phase := "Retrying (" ++ toString attempt ++ "/" ++
          toString max_retries ++ ")"
        logs := prev.logs ++
          [{ time := now, level := .Warn,
             message := "Empty API response at round " ++ toString r ++
               ", retrying (" ++ toString attempt ++ "/" ++
               toString max_retries ++ ")" }] }
  | .approval_required name _ =>
      { prev with
        logs := prev.logs ++
          [{ time := now, level := .Info,
             message := "Approval required for tool: " ++ name }] }
  | .todo_update content =>
      match prev.entries.findIdx? isTodoUpdateEntry with
      | some idx =>
          { prev with entries := prev.entries.set idx (.TodoUpdate content) }
      | none =>
          { prev with entries := prev.entries ++ [.TodoUpdate content] }
  | .unknown _ _ => prev

/-- Mirrors `ResolvedEntry` in `components/InspectorPanel.tsx`: the
display-ready entry kinds produced by the resolver. A pending `tool`
entry has `result = none` and `isError = none` (TypeScript
`undefined`). -/
inductive ResolvedEntry
  | user (message : String)
  | text (text : String)
  | tool (name arguments : String) (result : Option String)
      (isError : Option Bool)
  | orphan_result (name result : String) (isError : Bool)
  | todo (content : String)
deriving DecidableEq, Repr

/-- The loop body of `resolveEntries` in `components/InspectorPanel.tsx`.
The index-based loop reads `entries[i + 1]` (the head of `rest` here)
and `entries[i - 1]` (the `prev` argument, `none` at index 0). -/
def resolveEntriesGo (prev : Option AgentEntry) :
    List AgentEntry → List ResolvedEntry
  | [] => []
  | .UserMessage m :: rest =>
      .user m :: resolveEntriesGo (some (.UserMessage m)) rest
  | .Text t :: rest =>
      .text t :: resolveEntriesGo (some (.Text t)) rest
  | .ToolExecuting n a :: rest =>
      (match rest with
       | .ToolResult rn rr re :: _ =>
           if rn = n then ResolvedEntry.tool n a (some rr) (some re)
           else ResolvedEntry.tool n a none none
       | _ => ResolvedEntry.tool n a none none)
        :: resolveEntriesGo (some (.ToolExecuting n a)) rest
  | .ToolResult n r e :: rest =>
      match prev with
      | some (.ToolExecuting pn _) =>
          if pn = n then
            -- Skip: preceded by matching ToolExecuting (already paired).
            resolveEntriesGo (some (.ToolResult n r e)) rest
          else
            .orphan_result n r e :: resolveEntriesGo (some (.ToolResult n r e)) rest
      | _ =>
          .orphan_result n r e :: resolveEntriesGo (some (.ToolResult n r e)) rest
  | .TodoUpdate c :: rest =>
      .todo c :: resolveEntriesGo (some (.TodoUpdate c)) rest

/-- `resolveEntries` of `components/InspectorPanel.tsx`: resolve the raw
entry log into a flat list ready for rendering, pairing adjacent
`ToolExecuting` / `ToolResult` entries of the same name. -/
def resolveEntries (entries : List AgentEntry) : List ResolvedEntry :=
  resolveEntriesGo none entries

-- ── Connection manager backoff (`hooks/useAgentSocket.ts`) ────────────

/-- `MAX_RETRY_DELAY` in `hooks/useAgentSocket.ts`. -/
def MAX_RETRY_DELAY : Nat := 16000

/-- Initial value of `retryDelayRef` in `hooks/useAgentSocket.ts`. -/
def initialRetryDelay : Nat := 1000

/-- Effect of the `ws.onopen` handler on the stored retry delay:
`retryDelayRef.current = 1000`. -/
def onOpenDelay (_d : Nat) : Nat := 1000

/-- Effect of the `ws.onclose` handler on the stored retry delay: it
schedules reconnection after `delay = min(retryDelayRef.current,
MAX_RETRY_DELAY)` and stores `delay * 2` for next time. Returns
`(scheduled delay, new stored delay)`. -/
def onCloseDelay (d : Nat) : Nat × Nat :=
  (min d MAX_RETRY_DELAY, min d MAX_RETRY_DELAY * 2)

/-- Stored retry delay after `n` consecutive closes with no intervening
successful open, starting from the initial (or just-reset) value. -/
def retryDelayAfterCloses : Nat → Nat
  | 0 => initialRetryDelay
  | n + 1 => (onCloseDelay (retryDelayAfterCloses n)).2

/-- Reconnect delay scheduled by the close handler when `n` consecutive
closes (with no intervening open) have already been handled — i.e. the
delay the `(n + 1)`-th consecutive failure schedules. -/
def scheduledDelay (n : Nat) : Nat :=
  (onCloseDelay (retryDelayAfterCloses n)).1

-- ── Connection-status presentation (`components/ConnectionStatus.tsx`) ─

/-- The four presentation phases of `components/ConnectionStatus.tsx`. -/
inductive PresPhase
  | hidden
  | disconnected
  | reconnected
  | exiting
deriving DecidableEq, Repr

/-- State of the `ConnectionStatus` machine: the `phaseRef` value and the
`prevConnectedRef` value. -/
structure ConnStatus where
  phase : PresPhase
  prevConnected : Bool
deriving DecidableEq, Repr

/-- Initial refs of `ConnectionStatus`: `phaseRef = "hidden"`,
`prevConnectedRef = true`. -/
def initConnStatus : ConnStatus :=
  { phase := .hidden, prevConnected := true }

/-- Delay (ms) after a `reconnected` announcement until the phase
auto-advances to `exiting` (first `setTimeout` in the effect). -/
def RECONNECT_EXIT_MS : Nat := 2000

/-- Delay (ms) after a `reconnected` announcement until the phase
auto-advances to `hidden` (second `setTimeout` in the effect). -/
def RECONNECT_HIDE_MS : Nat := 2350

/-- One run of the `ConnectionStatus` effect body, which fires on mount
and whenever the observed `connected` boolean changes. Returns the new
machine state together with the timers it schedules (delay in ms and the
phase each timer will set). -/
def observeConnected (s : ConnStatus) (connected : Bool) :
    ConnStatus × List (Nat × PresPhase) :=
  let wasConnected := s.prevConnected
  if connected = false then
    ({ phase := .disconnected, prevConnected := connected }, [])
  else if wasConnected = false then
    ({ phase := .reconnected, prevConnected := connected },
     [(RECONNECT_EXIT_MS, .exiting), (RECONNECT_HIDE_MS, .hidden)])
  else
    ({ s with prevConnected := connected }, [])

/-- Number of raw `ToolResult` entries in an entry log. -/
def countToolResults : List AgentEntry → Nat
  | [] => 0
  | .ToolResult _ _ _ :: rest => countToolResults rest + 1
  | _ :: rest => countToolResults rest

/-- Number of `orphan_result` entries in a resolved list. -/
def countOrphanResults : List ResolvedEntry → Nat
  | [] => 0
  | .orphan_result _ _ _ :: rest => countOrphanResults rest + 1
  | _ :: rest => countOrphanResults rest

/-- Number of completed `tool` entries (those carrying a merged result)
in a resolved list. -/
def countPairedTools : List ResolvedEntry → Nat
  | [] => 0
  | .tool _ _ (some _) _ :: rest => countPairedTools rest + 1
  | _ :: rest => countPairedTools rest

/-- 1 when the head of `l` is a `ToolResult` that the resolver will skip
because `prev` is a `ToolExecuting` of the same name (the result having
already been merged into that call's resolved entry), else 0. -/
def consumedByPrev (prev : Option AgentEntry) (l : List AgentEntry) : Nat :=
  match l with
  | .ToolResult n _ _ :: _ =>
      match prev with
      | some (.ToolExecuting pn _) => if pn = n then 1 else 0
      | _ => 0
  | _ => 0

/-- `true` iff the optional entry is a `ToolExecuting`. -/
def isToolExecutingOpt : Option AgentEntry → Bool
  | some (.ToolExecuting _ _) => true
  | _ => false

-- ── Theorems ──────────────────────────────────────────────────────────

/-- C1: for every session state and every snapshot message, the reducer
returns a state whose two cumulative token counters equal those of the
previous state, whose `reasoningBuffer` is empty, and whose every other
field equals the corresponding field of the snapshot payload. -/
theorem snapshot_carries_counters (now : String) (prev : AgentState)
    (s : UiStateSnapshot) :
    (applyMessage now prev (.snapshot s)).totalPromptTokens =
        prev.totalPromptTokens ∧
    (applyMessage now prev (.snapshot s)).totalCompletionTokens =
        prev.totalCompletionTokens ∧
    (applyMessage now prev (.snapshot s)).reasoningBuffer = "" ∧
    (applyMessage now prev (.snapshot s)).phase = s.phase ∧
    (applyMessage now prev (.snapshot s)).round = s.round ∧
    (applyMessage now prev (.snapshot s)).maxRounds = s.max_rounds ∧
    (applyMessage now prev (.snapshot s)).contextPct = s.context_pct ∧
    (applyMessage now prev (.snapshot s)).model = s.model ∧
    (applyMessage now prev (.snapshot s)).cycle = s.cycle ∧
    (applyMessage now prev (.snapshot s)).entries = s.agent_output ∧
    (applyMessage now prev (.snapshot s)).streamingBuffer =
        s.streaming_buffer ∧
    (applyMessage now prev (.snapshot s)).logs = s.logs ∧
    (applyMessage now prev (.snapshot s)).running = s.running ∧
    (applyMessage now prev (.snapshot s)).nextCycleSecs = s.next_cycle_secs ∧
    (applyMessage now prev (.snapshot s)).activeQuestion =
        s.active_question ∧
    (applyMessage now prev (.snapshot s)).extension = s.extension :=
  ⟨rfl, rfl, rfl, rfl, rfl, rfl, rfl, rfl, rfl, rfl, rfl, rfl, rfl, rfl,
   rfl, rfl⟩

/-- C7: a `text_delta` message appends its delta to `streamingBuffer` and
changes no entries — two deltas in a row extend the buffer by their
concatenation — and a `text` message appends a `Text` entry and resets
`streamingBuffer` to the empty string. -/
theorem streaming_reassembly (now₁ now₂ now₃ : String) (S : AgentState)
    (a b : String) :
    (applyMessage now₂ (applyMessage now₁ S (.text_delta a))
        (.text_delta b)).streamingBuffer = S.streamingBuffer ++ (a ++ b) ∧
    (applyMessage now₁ S (.text_delta a)).entries = S.entries ∧
    ∀ t, (applyMessage now₃ S (.text t)).streamingBuffer = "" ∧
      (applyMessage now₃ S (.text t)).entries = S.entries ++ [.Text t] := by
  refine ⟨?_, rfl, fun t => ⟨rfl, rfl⟩⟩
  show S.streamingBuffer ++ a ++ b = S.streamingBuffer ++ (a ++ b)
  rw [String.append_assoc]

/-- C8: a message whose `type` discriminator is not one of the recognized
shapes leaves the state unchanged and signals no error. -/
theorem unknown_message_noop (now : String) (S : AgentState)
    (tag payload : String) (_h : tag ∉ recognizedMessageTypes) :
    applyMessage now S (.unknown tag payload) = S := rfl

theorem unknown_message_noop_witness :
    "future_event" ∉ recognizedMessageTypes ∧
    applyMessage "t" INITIAL_STATE (.unknown "future_event" "x") =
      INITIAL_STATE :=
  ⟨by decide,
   unknown_message_noop "t" INITIAL_STATE "future_event" "x" (by decide)⟩

/-- The stored retry delay after `n` consecutive closes is
`min (1000·2^n) 32000` (the store holds twice the last scheduled delay,
hence the 32000 cap). -/
theorem retryDelayAfterCloses_eq (n : Nat) :
    retryDelayAfterCloses n = min (1000 * 2 ^ n) 32000 := by
  induction n with
  | zero => rfl
  | succ n ih =>
      have h2 : 1000 * 2 ^ (n + 1) = 1000 * 2 ^ n * 2 := by ring
      rw [retryDelayAfterCloses, ih, h2]
      show min (min (1000 * 2 ^ n) 32000) MAX_RETRY_DELAY * 2 =
        min (1000 * 2 ^ n * 2) 32000
      rw [MAX_RETRY_DELAY]
      omega

/-- C4: the reconnect delay scheduled after `n` consecutive closures with
no intervening successful open equals `min (1000·2^n) 16000` ms for every
`n ≥ 0` (the first failure schedules 1000 ms), and a successful open
resets the next scheduled delay to 1000 ms. -/
theorem backoff_bounds :
    (∀ n, scheduledDelay n = min (1000 * 2 ^ n) 16000) ∧
    (∀ d, (onCloseDelay (onOpenDelay d)).1 = 1000) := by
  constructor
  · intro n
    rw [scheduledDelay, retryDelayAfterCloses_eq]
    show min (min (1000 * 2 ^ n) 32000) MAX_RETRY_DELAY =
      min (1000 * 2 ^ n) 16000
    rw [MAX_RETRY_DELAY]
    omega
  · intro d
    rfl

/-- A `todo_update` applied to a state with no entries appends the one
`TodoUpdate` entry. -/
theorem applyTodo_of_entries_empty (now : String) (S : AgentState)
    (c : String) (h : S.entries = []) :
    (applyMessage now S (.todo_update c)).entries = [.TodoUpdate c] := by
  simp [applyMessage, h]

/-- A `todo_update` applied to a state whose only entry is a `TodoUpdate`
replaces it in place. -/
theorem applyTodo_of_entries_single (now : String) (S : AgentState)
    (c0 c : String) (h : S.entries = [.TodoUpdate c0]) :
    (applyMessage now S (.todo_update c)).entries = [.TodoUpdate c] := by
  simp [applyMessage, h, List.findIdx?, isTodoUpdateEntry]

/-- Folding `todo_update` messages over a state with a single `TodoUpdate`
entry keeps exactly one entry, holding the last content. -/
theorem todoFold (now : String) : ∀ (cs : List String) (S : AgentState)
    (c0 : String), S.entries = [.TodoUpdate c0] →
    ((cs.foldl (fun st c => applyMessage now st (.todo_update c)) S).entries
      = [.TodoUpdate (cs.getLastD c0)]) := by
  intro cs
  induction cs with
  | nil => intro S c0 h; simpa using h
  | cons c cs ih =>
      intro S c0 h
      rw [List.foldl_cons, List.getLastD_cons]
      exact ih _ c (applyTodo_of_entries_single now S c0 c h)

/-- C3: applying any non-empty sequence of `todo_update` messages to a
state with no entries results in exactly one `TodoUpdate` entry whose
content is the last update's content; it sits at index 0, which is the
index at which the first `todo_update` placed it (so no later than it). -/
theorem todo_singleton (now : String) (S : AgentState) (cs : List String)
    (hne : cs ≠ []) (h : S.entries = []) :
    ((cs.foldl (fun st c => applyMessage now st (.todo_update c)) S).entries
      = [.TodoUpdate (cs.getLast hne)]) := by
  cases cs with
  | nil => exact absurd rfl hne
  | cons c cs =>
      rw [List.foldl_cons, List.getLast_eq_getLastD]
      exact todoFold now cs _ c (applyTodo_of_entries_empty now S c h)

theorem todo_singleton_witness :
    ((["a", "b"].foldl (fun st c => applyMessage "t" st (.todo_update c))
        INITIAL_STATE).entries = [.TodoUpdate "b"]) :=
  todo_singleton "t" INITIAL_STATE ["a", "b"] (by decide) rfl

/-- C9: for every message except `snapshot`, the new entries list is the
old one either unchanged or with entries appended at the end, or — only
for a `todo_update` when the scan finds an existing `TodoUpdate` — the
old list with that single entry replaced in place at its existing index;
entries are never reordered or removed. -/
theorem entries_append_or_replace (now : String) (S : AgentState)
    (m : WsServerMessage) (h : isSnapshot m = false) :
    (∃ tail, (applyMessage now S m).entries = S.entries ++ tail) ∨
    (∃ c i, m = .todo_update c ∧
      S.entries.findIdx? isTodoUpdateEntry = some i ∧
      (applyMessage now S m).entries = S.entries.set i (.TodoUpdate c)) := by
  cases m
  case snapshot d => simp [isSnapshot] at h
  case todo_update c =>
    cases hidx : S.entries.findIdx? isTodoUpdateEntry with
    | none => exact Or.inl ⟨[.TodoUpdate c], by simp [applyMessage, hidx]⟩
    | some i => exact Or.inr ⟨c, i, rfl, rfl, by simp [applyMessage, hidx]⟩
  case text t => exact Or.inl ⟨[.Text t], rfl⟩
  case tool_executing n a => exact Or.inl ⟨[.ToolExecuting n a], rfl⟩
  case tool_result n r e => exact Or.inl ⟨[.ToolResult n r e], rfl⟩
  case reasoning t =>
    exact Or.inl ⟨[.ToolExecuting "think" (reasoningArguments t),
      .ToolResult "think" "ok" false], rfl⟩
  case user_message msg => exact Or.inl ⟨[.UserMessage msg], rfl⟩
  case tool_cache_hit n a =>
    exact Or.inl ⟨[.ToolExecuting (n ++ " (cached)") a], rfl⟩
  all_goals exact Or.inl ⟨[], (S.entries.append_nil).symm⟩

theorem entries_append_or_replace_witness :
    isSnapshot (.text "hi") = false ∧
    ((∃ tail, (applyMessage "t" INITIAL_STATE (.text "hi")).entries =
        INITIAL_STATE.entries ++ tail) ∨
     (∃ c i, WsServerMessage.text "hi" = .todo_update c ∧
        INITIAL_STATE.entries.findIdx? isTodoUpdateEntry = some i ∧
        (applyMessage "t" INITIAL_STATE (.text "hi")).entries =
          INITIAL_STATE.entries.set i (.TodoUpdate c))) :=
  ⟨rfl, entries_append_or_replace "t" INITIAL_STATE (.text "hi") rfl⟩

/-- C6 (amended): the reducer is a total function — never an exception —
and is deterministic as a function of the state, the message, and the
wall-clock reading it receives; for every message shape other than the
six that stamp a synthetic log line with the current time, its result
does not depend on the clock at all. -/
theorem applyMessage_deterministic_given_clock (now₁ now₂ : String)
    (S : AgentState) (m : WsServerMessage) (h : usesClock m = false) :
    applyMessage now₁ S m = applyMessage now₂ S m := by
  cases m
  case eviction a b => simp [usesClock] at h
  case compaction a => simp [usesClock] at h
  case checkpoint_saved a b => simp [usesClock] at h
  case checkpoint_resumed a => simp [usesClock] at h
  case empty_response a b c => simp [usesClock] at h
  case approval_required a b => simp [usesClock] at h
  all_goals rfl

theorem applyMessage_deterministic_given_clock_witness :
    usesClock (.text "hi") = false ∧
    applyMessage "08:00:00" INITIAL_STATE (.text "hi") =
      applyMessage "09:00:00" INITIAL_STATE (.text "hi") :=
  ⟨rfl, applyMessage_deterministic_given_clock "08:00:00" "09:00:00"
    INITIAL_STATE (.text "hi") rfl⟩

/-- C6 (counterexample to the claim as stated): two invocations of the
reducer on the same state and the same `eviction` message, made at
different wall-clock readings, return different states — the synthetic
log line is stamped with the time of the call, so the reducer is not
deterministic in `(S, m)` alone for the six log-synthesizing messages. -/
theorem applyMessage_clock_dependent :
    applyMessage "10:00:00" INITIAL_STATE (.eviction 1 2) ≠
      applyMessage "10:00:01" INITIAL_STATE (.eviction 1 2) := by
  intro h
  have h2 := congrArg AgentState.logs h
  simp [applyMessage, INITIAL_STATE] at h2

/-- C5 (evaluation at the failing input): the status effect runs once at
mount while the socket is still connecting, observing `connected = false`
(so the machine records `prevConnected = false` and shows
`disconnected`); the very first successful open is then observed with
`prevConnected = false` and takes the announcement branch, showing
`reconnected` and scheduling the 2000 ms / 2350 ms timers — even though
`prevConnectedRef` was initialized to `true` precisely so that the first
connect would not be announced. -/
theorem first_open_shows_reconnected :
    observeConnected (observeConnected initConnStatus false).1 true =
      ({ phase := .reconnected, prevConnected := true },
       [(2000, .exiting), (2350, .hidden)]) := rfl

/-- Prepending one entry to the resolver's input prepends that entry's
own resolved output (one resolved entry, or none when it is skipped)
before the resolution of the tail with the entry as predecessor. -/
theorem resolveGo_cons_exists (prev : Option AgentEntry) (p : AgentEntry)
    (L : List AgentEntry) :
    ∃ hd, resolveEntriesGo prev (p :: L) =
      hd ++ resolveEntriesGo (some p) L := by
  cases p with
  | UserMessage m => exact ⟨[.user m], rfl⟩
  | Text t => exact ⟨[.text t], rfl⟩
  | TodoUpdate c => exact ⟨[.todo c], rfl⟩
  | ToolExecuting n a =>
      exact ⟨[match L with
              | .ToolResult rn rr re :: _ =>
                  if rn = n then ResolvedEntry.tool n a (some rr) (some re)
                  else ResolvedEntry.tool n a none none
              | _ => ResolvedEntry.tool n a none none], rfl⟩
  | ToolResult n r e =>
      cases prev with
      | none => exact ⟨[.orphan_result n r e], rfl⟩
      | some q =>
          cases q with
          | ToolExecuting pn a' =>
              by_cases hpn : pn = n
              · exact ⟨[], by simp [resolveEntriesGo, hpn]⟩
              · exact ⟨[.orphan_result n r e], by simp [resolveEntriesGo, hpn]⟩
          | UserMessage m => exact ⟨[.orphan_result n r e], rfl⟩
          | Text t => exact ⟨[.orphan_result n r e], rfl⟩
          | ToolResult n' r' e' => exact ⟨[.orphan_result n r e], rfl⟩
          | TodoUpdate c => exact ⟨[.orphan_result n r e], rfl⟩

/-- A `ToolResult` whose immediate predecessor is not a `ToolExecuting`
of the same name is resolved as an orphan. -/
theorem resolveGo_orphan_head (x : AgentEntry) (n r : String) (e : Bool)
    (post : List AgentEntry) (hx : ∀ a, x ≠ .ToolExecuting n a) :
    resolveEntriesGo (some x) (.ToolResult n r e :: post) =
      .orphan_result n r e ::
        resolveEntriesGo (some (.ToolResult n r e)) post := by
  cases x with
  | ToolExecuting pn a' =>
      have hpn : pn ≠ n := fun hh => hx a' (by rw [hh])
      simp [resolveEntriesGo, hpn]
  | UserMessage m => rfl
  | Text t => rfl
  | ToolResult n' r' e' => rfl
  | TodoUpdate c => rfl

/-- A `ToolResult` preceded (anywhere, at any distance) by an entry that
is not a `ToolExecuting` of its name resolves to an orphan entry in the
output, wherever in the input it sits. -/
theorem resolveGo_orphan_between :
    ∀ (pre : List AgentEntry) (prev : Option AgentEntry) (x : AgentEntry)
      (n r : String) (e : Bool) (post : List AgentEntry),
      (∀ a, x ≠ .ToolExecuting n a) →
      ∃ out₁ out₂, resolveEntriesGo prev
          (pre ++ x :: .ToolResult n r e :: post) =
        out₁ ++ .orphan_result n r e :: out₂ := by
  intro pre
  induction pre with
  | nil =>
      intro prev x n r e post hx
      obtain ⟨hd, hhd⟩ :=
        resolveGo_cons_exists prev x (.ToolResult n r e :: post)
      rw [List.nil_append, hhd, resolveGo_orphan_head x n r e post hx]
      exact ⟨hd, resolveEntriesGo (some (.ToolResult n r e)) post, rfl⟩
  | cons p pre ih =>
      intro prev x n r e post hx
      obtain ⟨hd, hhd⟩ := resolveGo_cons_exists prev p
        (pre ++ x :: .ToolResult n r e :: post)
      rw [List.cons_append, hhd]
      obtain ⟨o1, o2, ho⟩ := ih (some p) x n r e post hx
      rw [ho]
      exact ⟨hd ++ o1, o2, by rw [List.append_assoc]⟩

/-- C2: the resolver pairs a `ToolExecuting` only with an immediately
adjacent matching `ToolResult`: `[ToolExecuting A, ToolResult A]` yields
one paired tool entry; `[ToolExecuting A, Text x, ToolResult A]` yields a
pending tool entry, a text entry, then an orphan result; and in general a
`ToolResult` whose immediate predecessor is not a matching
`ToolExecuting` — in particular one separated from its call by any
intervening entry — is never paired and resolves as an orphan. -/
theorem pairing_adjacency :
    resolveEntries [.ToolExecuting "A" "args", .ToolResult "A" "out" false]
      = [.tool "A" "args" (some "out") (some false)] ∧
    resolveEntries [.ToolExecuting "A" "args", .Text "x",
        .ToolResult "A" "out" false]
      = [.tool "A" "args" none none, .text "x",
         .orphan_result "A" "out" false] ∧
    ∀ (pre : List AgentEntry) (x : AgentEntry) (n r : String) (e : Bool)
      (post : List AgentEntry), (∀ a, x ≠ .ToolExecuting n a) →
      ∃ out₁ out₂,
        resolveEntries (pre ++ x :: .ToolResult n r e :: post) =
          out₁ ++ .orphan_result n r e :: out₂ := by
  refine ⟨by decide, by decide, ?_⟩
  intro pre x n r e post hx
  exact resolveGo_orphan_between pre none x n r e post hx

theorem pairing_adjacency_witness :
    ∃ out₁ out₂,
      resolveEntries [.Text "x", .ToolResult "A" "out" false] =
        out₁ ++ .orphan_result "A" "out" false :: out₂ :=
  pairing_adjacency.2.2 [] (.Text "x") "A" "out" false []
    (fun _ h => nomatch h)

/-- When the predecessor is not a `ToolExecuting`, no head result is
consumed by it. -/
theorem consumedByPrev_eq_zero (prev : Option AgentEntry)
    (l : List AgentEntry) (h : isToolExecutingOpt prev = false) :
    consumedByPrev prev l = 0 := by
  cases l with
  | nil => rfl
  | cons q l' =>
      cases q with
      | ToolResult n r e =>
          cases prev with
          | none => rfl
          | some p =>
              cases p with
              | ToolExecuting pn a => simp [isToolExecutingOpt] at h
              | UserMessage m => rfl
              | Text t => rfl
              | ToolResult n' r' e' => rfl
              | TodoUpdate c => rfl
      | UserMessage m => rfl
      | Text t => rfl
      | ToolExecuting n a => rfl
      | TodoUpdate c => rfl

/-- Conservation invariant of the resolver scan: the number of raw
`ToolResult` entries in the remaining input equals the orphans plus the
merged results the scan will emit, plus one when the head result has
already been merged into the predecessor's resolved entry and will be
skipped. -/
theorem resolveGo_count : ∀ (l : List AgentEntry)
    (prev : Option AgentEntry),
    countToolResults l =
      countOrphanResults (resolveEntriesGo prev l) +
        countPairedTools (resolveEntriesGo prev l) +
        consumedByPrev prev l := by
  intro l
  induction l with
  | nil =>
      intro prev
      simp [countToolResults, resolveEntriesGo, countOrphanResults,
        countPairedTools, consumedByPrev]
  | cons x rest ih =>
      intro prev
      cases x with
      | UserMessage m =>
          have hih := ih (some (.UserMessage m))
          rw [consumedByPrev_eq_zero (some (.UserMessage m)) rest rfl] at hih
          simpa [countToolResults, resolveEntriesGo, countOrphanResults,
            countPairedTools, consumedByPrev] using hih
      | Text t =>
          have hih := ih (some (.Text t))
          rw [consumedByPrev_eq_zero (some (.Text t)) rest rfl] at hih
          simpa [countToolResults, resolveEntriesGo, countOrphanResults,
            countPairedTools, consumedByPrev] using hih
      | TodoUpdate c =>
          have hih := ih (some (.TodoUpdate c))
          rw [consumedByPrev_eq_zero (some (.TodoUpdate c)) rest rfl] at hih
          simpa [countToolResults, resolveEntriesGo, countOrphanResults,
            countPairedTools, consumedByPrev] using hih
      | ToolExecuting n a =>
          have hih := ih (some (.ToolExecuting n a))
          cases rest with
          | nil =>
              simp [countToolResults, resolveEntriesGo, countOrphanResults,
                countPairedTools, consumedByPrev]
          | cons q rest' =>
              cases q with
              | ToolResult rn rr re =>
                  by_cases hrn : rn = n
                  · subst hrn
                    simp [countToolResults, resolveEntriesGo,
                      countOrphanResults, countPairedTools,
                      consumedByPrev] at hih ⊢
                    omega
                  · have hnrn : ¬ n = rn := fun hh => hrn hh.symm
                    simp [countToolResults, resolveEntriesGo,
                      countOrphanResults, countPairedTools, consumedByPrev,
                      hrn, hnrn] at hih ⊢
                    omega
              | UserMessage m =>
                  simpa [countToolResults, resolveEntriesGo,
                    countOrphanResults, countPairedTools,
                    consumedByPrev] using hih
              | Text t =>
                  simpa [countToolResults, resolveEntriesGo,
                    countOrphanResults, countPairedTools,
                    consumedByPrev] using hih
              | ToolExecuting n' a' =>
                  simpa [countToolResults, resolveEntriesGo,
                    countOrphanResults, countPairedTools,
                    consumedByPrev] using hih
              | TodoUpdate c =>
                  simpa [countToolResults, resolveEntriesGo,
                    countOrphanResults, countPairedTools,
                    consumedByPrev] using hih
      | ToolResult n r e =>
          have hih := ih (some (.ToolResult n r e))
          rw [consumedByPrev_eq_zero (some (.ToolResult n r e)) rest rfl] at hih
          cases prev with
          | none =>
              simp [countToolResults, resolveEntriesGo, countOrphanResults,
                countPairedTools, consumedByPrev] at hih ⊢
              omega
          | some p =>
              cases p with
              | ToolExecuting pn a' =>
                  by_cases hpn : pn = n
                  · subst hpn
                    simp [countToolResults, resolveEntriesGo,
                      countOrphanResults, countPairedTools,
                      consumedByPrev] at hih ⊢
                    omega
                  · simp [countToolResults, resolveEntriesGo,
                      countOrphanResults, countPairedTools, consumedByPrev,
                      hpn] at hih ⊢
                    omega
              | UserMessage m =>
                  simp [countToolResults, resolveEntriesGo,
                    countOrphanResults, countPairedTools,
                    consumedByPrev] at hih ⊢
                  omega
              | Text t =>
                  simp [countToolResults, resolveEntriesGo,
                    countOrphanResults, countPairedTools,
                    consumedByPrev] at hih ⊢
                  omega
              | ToolResult n' r' e' =>
                  simp [countToolResults, resolveEntriesGo,
                    countOrphanResults, countPairedTools,
                    consumedByPrev] at hih ⊢
                  omega
              | TodoUpdate c =>
                  simp [countToolResults, resolveEntriesGo,
                    countOrphanResults, countPairedTools,
                    consumedByPrev] at hih ⊢
                  omega

/-- C10: every raw `ToolResult` entry contributes to exactly one resolved
entry — it is either merged into the completed `tool` entry of its
immediately preceding matching `ToolExecuting`, or emitted as exactly one
`orphan_result`; none is dropped and none is counted twice, so the
`ToolResult` count of the input equals the orphan count plus the
completed-tool count of the output. -/
theorem tool_result_conservation (entries : List AgentEntry) :
    countToolResults entries =
      countOrphanResults (resolveEntries entries) +
        countPairedTools (resolveEntries entries) := by
  have h := resolveGo_count entries none
  rw [consumedByPrev_eq_zero none entries rfl] at h
  simpa [resolveEntries] using h

end Cinch
